import Mathlib

/-!
Shallow embedding of the gas stock system backend
(`gas-stock-system/backend/app.py`): a ledger of stock movement records
plus a singleton summary aggregate, with create/update/delete movements,
a summary read and a date-filtered record listing.

Python floats are modelled as rationals (`ℚ`); all arithmetic performed
by the code (additions, subtractions, halving) is exact on the values of
interest.  Timestamps are modelled as microseconds since an epoch, as an
`Int`, matching `datetime` resolution.  Fallible HTTP handlers become
functions into `Except ApiError AppState`.
-/

namespace GasStock

/-- `StockRecord.type` column: the string `'in'` or `'out'`. -/
inductive Direction where
  | inb
  | outb
deriving DecidableEq, Repr

/-- One row of the `StockRecord` table: id, type (`in`/`out`), weight,
amount, creation instant (`datetime.utcnow`, microseconds since epoch,
UTC) and the unit tag (`'kg'` or `'jin'`). -/
structure StockRecord where
  id : Nat
  type : Direction
  weight : ℚ
  amount : ℚ
  created_at : Int
  unit : String
deriving DecidableEq, Repr

/-- The singleton `StockSummary` row: current stock in kilograms, total
sales and total cost. -/
structure StockSummary where
  current_stock : ℚ
  total_sales : ℚ
  total_cost : ℚ
deriving DecidableEq, Repr

/-- The whole database state: the ledger table, the summary row, and the
next primary key the store will assign. -/
structure AppState where
  records : List StockRecord
  summary : StockSummary
  next_id : Nat
deriving DecidableEq, Repr

/-- Error responses of the handlers, by taxonomy. -/
inductive ApiError where
  | validationError
  | insufficientStock
  | notFound
deriving DecidableEq, Repr

/-- HTTP status code attached to each error response. -/
def ApiError.statusCode : ApiError → Nat
  | .validationError => 400
  | .insufficientStock => 400
  | .notFound => 404

/-- Python truthiness test `not weight` on a JSON number that may be
absent: `None` and `0` are falsy, every other number is truthy. -/
def falsy : Option ℚ → Bool
  | none => true
  | some x => x == 0

/-- Zero-initialized database: empty ledger, summary row all zeros
(created at first boot), first autoincrement id 1. -/
def initState : AppState :=
  { records := [], summary := ⟨0, 0, 0⟩, next_id := 1 }

/-- `POST /api/stock/in` (`stock_in`): validate the two parameters for
truthiness, insert an Inbound record in kilograms, add the weight to the
stock and the amount to the total cost. -/
def stock_in (w a : Option ℚ) (now : Int) (s : AppState) :
    Except ApiError AppState :=
  match w, a with
  | some weight, some amount =>
    if weight = 0 ∨ amount = 0 then
      .error .validationError
    else
      let record : StockRecord :=
        { id := s.next_id, type := .inb, weight := weight, amount := amount,
          created_at := now, unit := "kg" }
      .ok { records := s.records ++ [record],
            summary :=
              { current_stock := s.summary.current_stock + weight,
                total_sales := s.summary.total_sales,
                total_cost := s.summary.total_cost + amount },
            next_id := s.next_id + 1 }
  | _, _ => .error .validationError

/-- `POST /api/stock/out` (`stock_out`): validate for truthiness, convert
jin to kilograms (`weight / 2`), refuse if current stock is below that,
otherwise insert an Outbound record in jin, subtract the kilograms from
the stock and add the amount to total sales. -/
def stock_out (w a : Option ℚ) (now : Int) (s : AppState) :
    Except ApiError AppState :=
  match w, a with
  | some weight, some amount =>
    if weight = 0 ∨ amount = 0 then
      .error .validationError
    else
      let weight_kg := weight / 2
      if s.summary.current_stock < weight_kg then
        .error .insufficientStock
      else
        let record : StockRecord :=
          { id := s.next_id, type := .outb, weight := weight,
            amount := amount, created_at := now, unit := "jin" }
        .ok { records := s.records ++ [record],
              summary :=
                { current_stock := s.summary.current_stock - weight_kg,
                  total_sales := s.summary.total_sales + amount,
                  total_cost := s.summary.total_cost },
              next_id := s.next_id + 1 }
  | _, _ => .error .validationError

/-- `StockRecord.query.get(record_id)`: primary-key lookup in the ledger. -/
def findRecord (rid : Nat) (s : AppState) : Option StockRecord :=
  s.records.find? (fun r => r.id == rid)

/-- Replace the first list element satisfying `p` by its image under `f`,
leaving everything else in place (an in-place ORM object mutation). -/
def updateFirst (p : StockRecord → Bool) (f : StockRecord → StockRecord) :
    List StockRecord → List StockRecord
  | [] => []
  | x :: xs => if p x then f x :: xs else x :: updateFirst p f xs

/-- `DELETE /api/stock/records/<id>` (`delete_record`): 404 when the id is
unknown; otherwise undo the record's contribution to the summary (Inbound:
subtract weight from stock and amount from cost; Outbound: add weight/2
back to stock and subtract amount from sales) and remove the row. -/
def delete_record (rid : Nat) (s : AppState) : Except ApiError AppState :=
  match s.records.find? (fun r => r.id == rid) with
  | none => .error .notFound
  | some record =>
    let summary :=
      match record.type with
      | .inb =>
        { s.summary with
            current_stock := s.summary.current_stock - record.weight,
            total_cost := s.summary.total_cost - record.amount }
      | .outb =>
        { s.summary with
            current_stock := s.summary.current_stock + record.weight / 2,
            total_sales := s.summary.total_sales - record.amount }
    .ok { s with
            records := s.records.eraseP (fun r => r.id == rid),
            summary := summary }

/-- `PUT /api/stock/records/<id>` (`update_record`): 404 when the id is
unknown (checked before the body); then truthiness validation; then undo
the old contribution and apply the new one with the record's existing
direction, and store the new weight and amount on the record. -/
def update_record (rid : Nat) (w a : Option ℚ) (s : AppState) :
    Except ApiError AppState :=
  match s.records.find? (fun r => r.id == rid) with
  | none => .error .notFound
  | some record =>
    match w, a with
    | some weight, some amount =>
      if weight = 0 ∨ amount = 0 then
        .error .validationError
      else
        let summary :=
          match record.type with
          | .inb =>
            { s.summary with
                current_stock :=
                  s.summary.current_stock - record.weight + weight,
                total_cost := s.summary.total_cost - record.amount + amount }
          | .outb =>
            { s.summary with
                current_stock :=
                  s.summary.current_stock + record.weight / 2 - weight / 2,
                total_sales :=
                  s.summary.total_sales - record.amount + amount }
        .ok { s with
                records :=
                  updateFirst (fun r => r.id == rid)
                    (fun r => { r with weight := weight, amount := amount })
                    s.records,
                summary := summary }
    | _, _ => .error .validationError

/-- The summary view returned by `GET /api/stock/summary`. -/
structure SummaryView where
  current_stock : ℚ
  total_sales : ℚ
  total_cost : ℚ
  profit : ℚ
deriving DecidableEq, Repr

/-- `GET /api/stock/summary` (`get_summary`): read the summary row and
derive `profit = total_sales - total_cost`; the handler performs no
writes, so the state it leaves behind is returned alongside the view. -/
def get_summary (s : AppState) : SummaryView × AppState :=
  (⟨s.summary.current_stock, s.summary.total_sales, s.summary.total_cost,
    s.summary.total_sales - s.summary.total_cost⟩, s)

/-- Microseconds per day. -/
def usPerDay : Int := 86400000000

/-- `pytz.timezone('Asia/Shanghai')` used directly as a `tzinfo` in
`datetime.replace` yields the zone's LMT offset of +08:06 (pytz rounds
+8:05:43 to whole minutes), in microseconds. -/
def lmtOffsetUs : Int := 29160000000

/-- Modern Asia/Shanghai offset (+08:00) applied by a correct
`astimezone` call when formatting stored UTC instants, in microseconds. -/
def cstOffsetUs : Int := 28800000000

/-- Lower bound of the record filter for `start_time = day d` (days since
epoch): `strptime` gives local midnight of `d`, `replace(tzinfo=...)`
attaches the LMT offset, `astimezone(utc)` subtracts it. -/
def startUtc (d : Int) : Int := d * usPerDay - lmtOffsetUs

/-- Upper bound of the record filter for `end_time = day d`: the same
conversion as `startUtc`, after which the code replaces the time fields
of the resulting UTC datetime with 23:59:59.999999 — i.e. the last
microsecond of whatever UTC calendar day the converted instant fell on. -/
def endUtc (d : Int) : Int :=
  ((d * usPerDay - lmtOffsetUs).fdiv usPerDay) * usPerDay + (usPerDay - 1)

/-- The two `query.filter` clauses of `get_records`: each bound is applied
only when its parameter is present. -/
def recordInRange (st et : Option Int) (r : StockRecord) : Bool :=
  (match st with
   | none => true
   | some d => decide (startUtc d ≤ r.created_at)) &&
  (match et with
   | none => true
   | some d => decide (r.created_at ≤ endUtc d))

/-- Insert a record into a list kept in descending `created_at` order. -/
def insertDesc (r : StockRecord) : List StockRecord → List StockRecord
  | [] => [r]
  | x :: xs =>
    if x.created_at ≤ r.created_at then r :: x :: xs
    else x :: insertDesc r xs

/-- `order_by(StockRecord.created_at.desc())`: sort most recent first. -/
def sortDesc : List StockRecord → List StockRecord
  | [] => []
  | r :: rs => insertDesc r (sortDesc rs)

/-- One row of the `GET /api/stock/records` response: human label for the
direction and unit, and the creation instant shifted to local time for
display. -/
structure RecordRow where
  id : Nat
  typeLabel : String
  weight : ℚ
  unitLabel : String
  amount : ℚ
  created_at_local : Int
deriving DecidableEq, Repr

/-- Serialization of one record in `get_records`. -/
def toRow (r : StockRecord) : RecordRow :=
  { id := r.id,
    typeLabel := if r.type = .inb then "入库" else "出库",
    weight := r.weight,
    unitLabel := if r.unit = "kg" then "公斤" else "斤",
    amount := r.amount,
    created_at_local := r.created_at + cstOffsetUs }

/-- `GET /api/stock/records` (`get_records`): filter the ledger by the
optional date range, sort most recent first, serialize; the handler
performs no writes, so the state it leaves behind is returned alongside
the rows. -/
def get_records (st et : Option Int) (s : AppState) :
    List RecordRow × AppState :=
  ((sortDesc (s.records.filter (recordInRange st et))).map toRow, s)

/-- One mutating API request, with the creation instant the server clock
would assign where relevant. -/
inductive Op where
  | opIn (w a : Option ℚ) (now : Int)
  | opOut (w a : Option ℚ) (now : Int)
  | opUpdate (rid : Nat) (w a : Option ℚ)
  | opDelete (rid : Nat)

/-- Dispatch one request to its handler. -/
def execOp (op : Op) (s : AppState) : Except ApiError AppState :=
  match op with
  | .opIn w a now => stock_in w a now s
  | .opOut w a now => stock_out w a now s
  | .opUpdate rid w a => update_record rid w a s
  | .opDelete rid => delete_record rid s

/-- State after one request: a failed request returns before any commit,
leaving the database untouched. -/
def runOp (s : AppState) (op : Op) : AppState :=
  match execOp op s with
  | .ok s' => s'
  | .error _ => s

/-- State after a sequence of requests. -/
def runOps (s : AppState) (ops : List Op) : AppState :=
  ops.foldl runOp s

/-- Kg-normalized stock contribution of one surviving record: Inbound
counts its weight (kg), Outbound counts minus half its weight (jin). -/
def contrib (r : StockRecord) : ℚ :=
  match r.type with
  | .inb => r.weight
  | .outb => -(r.weight / 2)

/-- Cost contribution of one surviving record: the amount when Inbound. -/
def costOf (r : StockRecord) : ℚ :=
  match r.type with
  | .inb => r.amount
  | .outb => 0

/-- Sales contribution of one surviving record: the amount when Outbound. -/
def salesOf (r : StockRecord) : ℚ :=
  match r.type with
  | .inb => 0
  | .outb => r.amount

/-- Sum of a rational-valued attribute over the ledger. -/
def sumBy (c : StockRecord → ℚ) (l : List StockRecord) : ℚ :=
  (l.map c).sum

/-- Ledger–aggregate consistency: each summary field equals the matching
sum over the surviving records. -/
def consistent (s : AppState) : Prop :=
  s.summary.current_stock = sumBy contrib s.records ∧
  s.summary.total_cost = sumBy costOf s.records ∧
  s.summary.total_sales = sumBy salesOf s.records

/-! ### Sums over the ledger -/

theorem sumBy_append (c : StockRecord → ℚ) (l : List StockRecord)
    (r : StockRecord) : sumBy c (l ++ [r]) = sumBy c l + c r := by
  simp [sumBy]

theorem sumBy_eraseP (c : StockRecord → ℚ) (p : StockRecord → Bool) :
    ∀ (l : List StockRecord) (r : StockRecord), l.find? p = some r →
      sumBy c (l.eraseP p) = sumBy c l - c r := by
  intro l
  induction l with
  | nil => intro r h; simp [List.find?] at h
  | cons x xs ih =>
    intro r h
    by_cases hx : p x
    · rw [List.find?_cons_of_pos _ hx] at h
      cases h
      rw [List.eraseP_cons_of_pos hx]
      simp [sumBy]
    · rw [List.find?_cons_of_neg _ hx] at h
      rw [List.eraseP_cons_of_neg hx]
      have hxs := ih r h
      simp only [sumBy, List.map_cons, List.sum_cons] at hxs ⊢
      rw [hxs]
      ring

theorem sumBy_updateFirst (c : StockRecord → ℚ) (p : StockRecord → Bool)
    (f : StockRecord → StockRecord) :
    ∀ (l : List StockRecord) (r : StockRecord), l.find? p = some r →
      sumBy c (updateFirst p f l) = sumBy c l - c r + c (f r) := by
  intro l
  induction l with
  | nil => intro r h; simp [List.find?] at h
  | cons x xs ih =>
    intro r h
    by_cases hx : p x
    · rw [List.find?_cons_of_pos _ hx] at h
      cases h
      simp only [updateFirst, if_pos hx, sumBy, List.map_cons, List.sum_cons]
      ring
    · rw [List.find?_cons_of_neg _ hx] at h
      have hxs := ih r h
      simp only [updateFirst, if_neg hx, sumBy, List.map_cons, List.sum_cons]
        at hxs ⊢
      rw [hxs]
      ring

theorem map_updateFirst_eq {β : Type} (g : StockRecord → β)
    (p : StockRecord → Bool) (f : StockRecord → StockRecord)
    (hf : ∀ x, g (f x) = g x) :
    ∀ l : List StockRecord, (updateFirst p f l).map g = l.map g := by
  intro l
  induction l with
  | nil => rfl
  | cons x xs ih =>
    by_cases hx : p x
    · simp [updateFirst, if_pos hx, hf]
    · simp [updateFirst, if_neg hx, ih]

/-! ### Preservation of ledger–aggregate consistency -/

theorem consistent_runOp (s : AppState) (op : Op) (h : consistent s) :
    consistent (runOp s op) := by
  obtain ⟨h1, h2, h3⟩ := h
  cases op with
  | opIn w a now =>
    rcases w with _ | weight <;> rcases a with _ | amount <;>
      simp only [runOp, execOp, stock_in] <;>
      try exact ⟨h1, h2, h3⟩
    by_cases hz : weight = 0 ∨ amount = 0
    · rw [if_pos hz]; exact ⟨h1, h2, h3⟩
    · rw [if_neg hz]
      refine ⟨?_, ?_, ?_⟩ <;>
        simp [sumBy_append, contrib, costOf, salesOf, h1, h2, h3]
  | opOut w a now =>
    rcases w with _ | weight <;> rcases a with _ | amount <;>
      simp only [runOp, execOp, stock_out] <;>
      try exact ⟨h1, h2, h3⟩
    by_cases hz : weight = 0 ∨ amount = 0
    · rw [if_pos hz]; exact ⟨h1, h2, h3⟩
    · rw [if_neg hz]
      by_cases hlt : s.summary.current_stock < weight / 2
      · rw [if_pos hlt]; exact ⟨h1, h2, h3⟩
      · rw [if_neg hlt]
        refine ⟨?_, ?_, ?_⟩ <;>
          simp [sumBy_append, contrib, costOf, salesOf, h1, h2, h3] <;> ring
  | opUpdate rid w a =>
    cases hf : s.records.find? (fun r => r.id == rid) with
    | none =>
      simp only [runOp, execOp, update_record, hf]
      exact ⟨h1, h2, h3⟩
    | some record =>
      simp only [runOp, execOp, update_record, hf]
      rcases w with _ | weight <;> rcases a with _ | amount <;>
        dsimp only <;>
        try exact ⟨h1, h2, h3⟩
      by_cases hz : weight = 0 ∨ amount = 0
      · rw [if_pos hz]; exact ⟨h1, h2, h3⟩
      · rw [if_neg hz]
        obtain ⟨i, t, wt, am, ca, u⟩ := record
        cases t <;>
          refine ⟨?_, ?_, ?_⟩ <;>
            simp [sumBy_updateFirst _ _ _ _ _ hf, contrib, costOf, salesOf,
              h1, h2, h3] <;> ring
  | opDelete rid =>
    cases hf : s.records.find? (fun r => r.id == rid) with
    | none =>
      simp only [runOp, execOp, delete_record, hf]
      exact ⟨h1, h2, h3⟩
    | some record =>
      simp only [runOp, execOp, delete_record, hf]
      obtain ⟨i, t, wt, am, ca, u⟩ := record
      cases t <;>
        refine ⟨?_, ?_, ?_⟩ <;>
          simp [sumBy_eraseP _ _ _ _ hf, contrib, costOf, salesOf,
            h1, h2, h3]

theorem consistent_runOps (ops : List Op) :
    ∀ s : AppState, consistent s → consistent (runOps s ops) := by
  induction ops with
  | nil => intro s h; exact h
  | cons op rest ih =>
    intro s h
    have hstep := consistent_runOp s op h
    simpa only [runOps, List.foldl_cons] using ih (runOp s op) hstep

theorem consistent_initState : consistent initState := by
  refine ⟨?_, ?_, ?_⟩ <;> simp [initState, sumBy]

/-! ### Claims -/

/-- C1: after every completed sequence of `stock_in` / `stock_out` /
`update_record` / `delete_record` requests starting from the
zero-initialized database, `current_stock` equals the kg-normalized sum
of the surviving records' contributions (Inbound `+weight`, Outbound
`-weight/2`), `total_cost` the sum of the surviving Inbound amounts, and
`total_sales` the sum of the surviving Outbound amounts. -/
theorem claim_ledger_aggregate_invariant (ops : List Op) :
    consistent (runOps initState ops) :=
  consistent_runOps ops initState consistent_initState

/-- C2: with truthy weight and amount and `current_stock < weight / 2`,
`stock_out` fails with `insufficientStock` (a pre-mutation check) and the
ledger and all three summary fields are unchanged. -/
theorem claim_outbound_insufficient_stock (s : AppState) (w a : ℚ)
    (now : Int) (hw : w ≠ 0) (ha : a ≠ 0)
    (hlt : s.summary.current_stock < w / 2) :
    stock_out (some w) (some a) now s = .error .insufficientStock ∧
    runOp s (.opOut (some w) (some a) now) = s := by
  have hz : ¬(w = 0 ∨ a = 0) := by tauto
  refine ⟨?_, ?_⟩ <;>
    simp only [runOp, execOp, stock_out, if_neg hz, if_pos hlt]

/-- C2 witness: with current stock 3 kg, `stock_out` of 10 jin (5 kg) for
amount 50 fails with `insufficientStock` and leaves the state unchanged. -/
theorem claim_outbound_insufficient_stock_witness :
    stock_out (some 10) (some 50) 0 ⟨[], ⟨3, 0, 0⟩, 1⟩ =
      .error .insufficientStock ∧
    runOp ⟨[], ⟨3, 0, 0⟩, 1⟩ (.opOut (some 10) (some 50) 0) =
      ⟨[], ⟨3, 0, 0⟩, 1⟩ :=
  claim_outbound_insufficient_stock ⟨[], ⟨3, 0, 0⟩, 1⟩ 10 50 0
    (by norm_num) (by norm_num) (by show (3 : ℚ) < 10 / 2; norm_num)

/-- C6: with truthy weight and amount, `stock_in` always succeeds — no
stock ceiling — appending an Inbound kg record and adding the weight to
`current_stock` and the amount to `total_cost`, with `total_sales`
untouched. -/
theorem claim_inbound_always_succeeds (s : AppState) (w a : ℚ) (now : Int)
    (hw : w ≠ 0) (ha : a ≠ 0) :
    stock_in (some w) (some a) now s = .ok
      { records := s.records ++ [⟨s.next_id, .inb, w, a, now, "kg"⟩],
        summary := ⟨s.summary.current_stock + w, s.summary.total_sales,
          s.summary.total_cost + a⟩,
        next_id := s.next_id + 1 } := by
  have hz : ¬(w = 0 ∨ a = 0) := by tauto
  simp only [stock_in, if_neg hz]

/-- C6 witness: from the zero-initialized state, `stock_in(5, 20)`
succeeds, and the summary read then shows stock 5, sales 0, cost 20 and
derived profit −20. -/
theorem claim_inbound_always_succeeds_witness :
    stock_in (some 5) (some 20) 0 initState = .ok
      ⟨[⟨1, .inb, 5, 20, 0, "kg"⟩], ⟨5, 0, 20⟩, 2⟩ ∧
    (get_summary (runOps initState [.opIn (some 5) (some 20) 0])).1 =
      ⟨5, 0, 20, -20⟩ := by
  constructor
  · have h := claim_inbound_always_succeeds initState 5 20 0
      (by norm_num) (by norm_num)
    rw [h]
    with_unfolding_all rfl
  · with_unfolding_all rfl

/-- C7: deleting an existing record applies exactly the reversal half of
the update formula to the summary (Inbound: subtract weight and amount;
Outbound: add back weight/2, subtract amount from sales) and removes the
record. -/
theorem claim_delete_reversal (s : AppState) (rid : Nat) (r : StockRecord)
    (hf : findRecord rid s = some r) :
    delete_record rid s = .ok
      { s with
          records := s.records.eraseP (fun x => x.id == rid),
          summary :=
            match r.type with
            | .inb => ⟨s.summary.current_stock - r.weight,
                s.summary.total_sales, s.summary.total_cost - r.amount⟩
            | .outb => ⟨s.summary.current_stock + r.weight / 2,
                s.summary.total_sales - r.amount, s.summary.total_cost⟩ } := by
  simp only [findRecord] at hf
  simp only [delete_record, hf]

/-- C7 witness: deleting the Inbound(3 kg, 12) record from the state with
stock 3 and cost 12 returns the summary to all zeros and empties the
ledger. -/
theorem claim_delete_reversal_witness :
    delete_record 1 (runOps initState [.opIn (some 3) (some 12) 0]) =
      .ok ⟨[], ⟨0, 0, 0⟩, 2⟩ := by
  have h := claim_delete_reversal
    (runOps initState [.opIn (some 3) (some 12) 0]) 1
    ⟨1, .inb, 3, 12, 0, "kg"⟩ (by with_unfolding_all rfl)
  rw [h]
  with_unfolding_all rfl

/-- C3: updating an existing record with truthy values succeeds,
performs reversal-then-reapply with the record's existing direction
(Inbound: stock gains `new − old` weight and cost gains `new − old`
amount; Outbound: stock gains `(old − new)/2` and sales gains
`new − old` amount), and changes no record's id, direction or unit. -/
theorem claim_update_reversal (s : AppState) (rid : Nat) (r : StockRecord)
    (w a : ℚ) (hf : findRecord rid s = some r) (hw : w ≠ 0) (ha : a ≠ 0) :
    update_record rid (some w) (some a) s = .ok
      { records := updateFirst (fun x => x.id == rid)
          (fun x => { x with weight := w, amount := a }) s.records,
        summary :=
          match r.type with
          | .inb =>
            ⟨s.summary.current_stock + (w - r.weight), s.summary.total_sales,
              s.summary.total_cost + (a - r.amount)⟩
          | .outb =>
            ⟨s.summary.current_stock + (r.weight - w) / 2,
              s.summary.total_sales + (a - r.amount), s.summary.total_cost⟩,
        next_id := s.next_id } ∧
    (updateFirst (fun x => x.id == rid)
        (fun x => { x with weight := w, amount := a }) s.records).map
      (fun x => (x.id, x.type, x.unit)) =
      s.records.map (fun x => (x.id, x.type, x.unit)) := by
  have hz : ¬(w = 0 ∨ a = 0) := by tauto
  simp only [findRecord] at hf
  constructor
  · simp only [update_record, hf]
    rw [if_neg hz]
    obtain ⟨i, t, wt, am, ca, u⟩ := r
    cases t <;>
      · simp only [Except.ok.injEq, AppState.mk.injEq, StockSummary.mk.injEq]
        and_intros <;> first | trivial | ring
  · exact map_updateFirst_eq (fun x => (x.id, x.type, x.unit))
      (fun x => x.id == rid) (fun x => { x with weight := w, amount := a })
      (fun x => rfl) s.records

/-- C3 witness: after inbound 10 kg (cost 30) and outbound 4 jin for 10
(stock 8, sales 10), updating the outbound record to (2 jin, 5) yields
stock 9, sales 5, with direction and unit untouched. -/
theorem claim_update_reversal_witness :
    update_record 2 (some 2) (some 5)
      (runOps initState
        [.opIn (some 10) (some 30) 0, .opOut (some 4) (some 10) 1]) =
      .ok ⟨[⟨1, .inb, 10, 30, 0, "kg"⟩, ⟨2, .outb, 2, 5, 1, "jin"⟩],
        ⟨9, 5, 30⟩, 3⟩ := by
  have h := (claim_update_reversal
    (runOps initState
      [.opIn (some 10) (some 30) 0, .opOut (some 4) (some 10) 1]) 2
    ⟨2, .outb, 4, 10, 1, "jin"⟩ 2 5 (by with_unfolding_all rfl)
    (by norm_num) (by norm_num)).1
  rw [h]
  with_unfolding_all rfl

/-- The result of shrinking the inbound record to 1 kg after 5 kg have
been sold out of it: the stock goes to −4. -/
def negUpdateResult : AppState :=
  ⟨[⟨1, .inb, 1, 20, 0, "kg"⟩, ⟨2, .outb, 10, 50, 1, "jin"⟩],
    ⟨-4, 50, 20⟩, 3⟩

/-- The result of deleting the 5 kg inbound record after 8 kg have been
sold: the stock goes to −5. -/
def negDeleteResult : AppState :=
  ⟨[⟨2, .inb, 3, 7, 1, "kg"⟩, ⟨3, .outb, 16, 50, 2, "jin"⟩],
    ⟨-5, 50, 7⟩, 4⟩

/-- C5: neither `update_record` nor `delete_record` re-checks that the
stock stays non-negative: from reachable states, shrinking an inbound
record after sales, or deleting it, succeeds (no `insufficientStock`)
and leaves `current_stock` negative. -/
theorem claim_no_stock_revalidation :
    update_record 1 (some 1) (some 20)
      (runOps initState
        [.opIn (some 5) (some 20) 0, .opOut (some 10) (some 50) 1]) =
      .ok negUpdateResult ∧
    negUpdateResult.summary.current_stock < 0 ∧
    delete_record 1
      (runOps initState
        [.opIn (some 5) (some 20) 0, .opIn (some 3) (some 7) 1,
          .opOut (some 16) (some 50) 2]) =
      .ok negDeleteResult ∧
    negDeleteResult.summary.current_stock < 0 := by
  refine ⟨by with_unfolding_all rfl, ?_, by with_unfolding_all rfl, ?_⟩
  · show (-4 : ℚ) < 0
    norm_num
  · show (-5 : ℚ) < 0
    norm_num

/-- C8: for a movement id not present in the ledger, both `update_record`
and `delete_record` fail with `notFound` (HTTP 404) and leave the state
unchanged. -/
theorem claim_not_found (s : AppState) (rid : Nat) (w a : Option ℚ)
    (h : ∀ r ∈ s.records, r.id ≠ rid) :
    update_record rid w a s = .error .notFound ∧
    delete_record rid s = .error .notFound ∧
    runOp s (.opUpdate rid w a) = s ∧
    runOp s (.opDelete rid) = s ∧
    ApiError.notFound.statusCode = 404 := by
  have hf : s.records.find? (fun r => r.id == rid) = none := by
    rw [List.find?_eq_none]
    intro x hx
    simpa using h x hx
  refine ⟨?_, ?_, ?_, ?_, rfl⟩ <;>
    simp only [runOp, execOp, update_record, delete_record, hf]

/-- C8 witness: on the empty zero-initialized ledger, updating or
deleting movement 1 fails with `notFound` (404) and changes nothing. -/
theorem claim_not_found_witness :
    update_record 1 (some 2) (some 3) initState = .error .notFound ∧
    delete_record 1 initState = .error .notFound ∧
    runOp initState (.opUpdate 1 (some 2) (some 3)) = initState ∧
    runOp initState (.opDelete 1) = initState ∧
    ApiError.notFound.statusCode = 404 :=
  claim_not_found initState 1 (some 2) (some 3) (by simp [initState])

/-- C9: the three mutating handlers validate weight and amount only for
Python falsiness: they return `validationError` exactly when one of the
two is absent or zero (`update_record` only once the record exists), a
falsy input leaves the state unchanged, and any non-zero value — negative
included — is accepted by `stock_in` and its contribution applied. -/
theorem claim_falsiness_only_validation (w a : Option ℚ) (now : Int)
    (s : AppState) :
    ((stock_in w a now s = .error .validationError) ↔ (falsy w ∨ falsy a)) ∧
    ((stock_out w a now s = .error .validationError) ↔ (falsy w ∨ falsy a)) ∧
    (∀ rid r, findRecord rid s = some r →
      ((update_record rid w a s = .error .validationError) ↔
        (falsy w ∨ falsy a))) ∧
    ((falsy w ∨ falsy a) →
      runOp s (.opIn w a now) = s ∧ runOp s (.opOut w a now) = s ∧
      ∀ rid, runOp s (.opUpdate rid w a) = s) ∧
    (∀ x y : ℚ, x ≠ 0 → y ≠ 0 →
      stock_in (some x) (some y) now s = .ok
        { records := s.records ++ [⟨s.next_id, .inb, x, y, now, "kg"⟩],
          summary := ⟨s.summary.current_stock + x, s.summary.total_sales,
            s.summary.total_cost + y⟩,
          next_id := s.next_id + 1 }) := by
  refine ⟨?_, ?_, ?_, ?_, ?_⟩
  · rcases w with _ | x
    · simp [stock_in, falsy]
    rcases a with _ | y
    · simp [stock_in, falsy]
    by_cases hz : x = 0 ∨ y = 0
    · simp only [stock_in, if_pos hz, falsy, beq_iff_eq]
      tauto
    · simp only [stock_in, if_neg hz, falsy, beq_iff_eq]
      simp only [reduceCtorEq, false_iff]
      tauto
  · rcases w with _ | x
    · simp [stock_out, falsy]
    rcases a with _ | y
    · simp [stock_out, falsy]
    by_cases hz : x = 0 ∨ y = 0
    · simp only [stock_out, if_pos hz, falsy, beq_iff_eq]
      tauto
    · by_cases hlt : s.summary.current_stock < x / 2 <;>
        simp only [stock_out, if_neg hz, hlt, if_true, if_false, falsy,
          beq_iff_eq, Except.error.injEq, reduceCtorEq, false_iff] <;>
        tauto
  · intro rid r hf
    simp only [findRecord] at hf
    rcases w with _ | x
    · simp [update_record, hf, falsy]
    rcases a with _ | y
    · simp [update_record, hf, falsy]
    by_cases hz : x = 0 ∨ y = 0
    · simp only [update_record, hf, if_pos hz, falsy, beq_iff_eq]
      tauto
    · simp only [update_record, hf, if_neg hz, falsy, beq_iff_eq]
      simp only [reduceCtorEq, false_iff]
      tauto
  · intro h
    refine ⟨?_, ?_, ?_⟩
    · rcases w with _ | x
      · simp [runOp, execOp, stock_in]
      rcases a with _ | y
      · simp [runOp, execOp, stock_in]
      simp only [falsy, beq_iff_eq] at h
      have hz : x = 0 ∨ y = 0 := by tauto
      simp [runOp, execOp, stock_in, if_pos hz]
    · rcases w with _ | x
      · simp [runOp, execOp, stock_out]
      rcases a with _ | y
      · simp [runOp, execOp, stock_out]
      simp only [falsy, beq_iff_eq] at h
      have hz : x = 0 ∨ y = 0 := by tauto
      simp [runOp, execOp, stock_out, if_pos hz]
    · intro rid
      cases hf : s.records.find? (fun r => r.id == rid) with
      | none => simp [runOp, execOp, update_record, hf]
      | some r =>
        rcases w with _ | x
        · simp [runOp, execOp, update_record, hf]
        rcases a with _ | y
        · simp [runOp, execOp, update_record, hf]
        simp only [falsy, beq_iff_eq] at h
        have hz : x = 0 ∨ y = 0 := by tauto
        simp [runOp, execOp, update_record, hf, if_pos hz]
  · intro x y hx hy
    have hz : ¬(x = 0 ∨ y = 0) := by tauto
    simp only [stock_in, if_neg hz]

/-- C9 witness: a zero weight is rejected by `stock_in` with
`validationError` and no state change; an absent weight is rejected by
`stock_out`; a zero weight on an update of an existing record is
rejected; and a negative weight and amount are accepted by `stock_in`
and their negative contribution applied to the record and summary. -/
theorem claim_falsiness_only_validation_witness :
    (stock_in (some 0) (some 5) 0 initState = .error .validationError) ∧
    (stock_out none (some 5) 0 initState = .error .validationError) ∧
    (runOp initState (.opIn (some 0) (some 5) 0) = initState) ∧
    (update_record 1 (some 0) (some 5)
        ⟨[⟨1, .inb, 3, 12, 0, "kg"⟩], ⟨3, 0, 12⟩, 2⟩ =
      .error .validationError) ∧
    (stock_in (some (-5)) (some (-3)) 0 initState = .ok
      ⟨[⟨1, .inb, -5, -3, 0, "kg"⟩], ⟨-5, 0, -3⟩, 2⟩) := by
  refine ⟨?_, ?_, ?_, ?_, ?_⟩
  · exact (claim_falsiness_only_validation (some 0) (some 5) 0
      initState).1.mpr (by simp [falsy])
  · exact (claim_falsiness_only_validation none (some 5) 0
      initState).2.1.mpr (by simp [falsy])
  · exact ((claim_falsiness_only_validation (some 0) (some 5) 0
      initState).2.2.2.1 (by simp [falsy])).1
  · exact ((claim_falsiness_only_validation (some 0) (some 5) 0
      ⟨[⟨1, .inb, 3, 12, 0, "kg"⟩], ⟨3, 0, 12⟩, 2⟩).2.2.1 1
      ⟨1, .inb, 3, 12, 0, "kg"⟩ (by with_unfolding_all rfl)).mpr
      (by simp [falsy])
  · have h := (claim_falsiness_only_validation (some (-5)) (some (-3)) 0
      initState).2.2.2.2 (-5) (-3) (by norm_num) (by norm_num)
    rw [h]
    with_unfolding_all rfl

/-- C4 (refuted; the record-listing code contradicts its own comment,
which says the end date is to be included): for `end_time = day d` the
code attaches the zone to the naive local midnight, converts to UTC, and
only then replaces the time fields with 23:59:59.999999 — producing the
last microsecond of the UTC day on which the converted instant falls,
which for Asia/Shanghai is local 07:59:59.999999 of day `d`, not local
23:59:59.999999.  Concretely, for `d = 20000` (2024-10-04) the end bound
is `d * usPerDay - 1`, and a movement timestamped at local 23:50 of day
`d` (stored instant `d * usPerDay + 57000000000`, i.e. 15:50 UTC)
satisfies the start bound but lies strictly after the end bound, so
`get_records` with `start_time = end_time = d` returns the empty list
instead of including it as the claim requires. -/
theorem claim_date_filter_end_bound_bug :
    startUtc 20000 ≤ (20000 * usPerDay + 57000000000 : Int) ∧
    endUtc 20000 < (20000 * usPerDay + 57000000000 : Int) ∧
    endUtc 20000 = 20000 * usPerDay - 1 ∧
    (get_records (some 20000) (some 20000)
      ⟨[⟨1, .inb, 5, 20, 20000 * usPerDay + 57000000000, "kg"⟩],
        ⟨5, 0, 20⟩, 2⟩).1 = [] := by
  refine ⟨by decide, by decide, by with_unfolding_all rfl,
    by with_unfolding_all rfl⟩

/-- C10: the two read handlers, the summary read and the record listing
with any date parameters, leave the database state exactly as it was. -/
theorem claim_reads_pure (s : AppState) (st et : Option Int) :
    (get_summary s).2 = s ∧ (get_records st et s).2 = s :=
  ⟨rfl, rfl⟩

end GasStock
